import Mathlib

/-!
wasmtester: a Starlark embedding with two host builtins

The development follows `src/main.go`.  The host program registers two Go
builtins (`store_code`, `repeat`) and a constant (`greeting`), runs a fixed
Starlark program through `starlark.ExecFile`, and lists the resulting globals.

Layout:

* the value model that crosses the host/script boundary;
* the argument unpacker the builtins call (`starlark.UnpackArgs`);
* Go's `strings.Repeat`;
* the two builtins `storeCode` and `repeat` of `src/main.go`;
* a small evaluator for the Starlark fragment the embedded program uses;
* `ExampleExecFile` itself;
* the theorems.

Machine integers: Go's `int` is taken to be 64 bits wide.  Memory: the number of
bytes the machine can allocate for the result of `strings.Repeat` is a parameter
`mem` of the model; `repeat` itself is the function on a machine whose memory
suffices up to the limit of the runtime.  Floats and mappings are never built by
the embedded program and are not represented.
-/

namespace Wasmtester

/-! ## Value model -/

/-- The Starlark values the embedded program can build or receive. -/
inductive Value where
  | none
  | bool (b : Bool)
  | int (n : Int)
  | str (s : String)
  | list (xs : List Value)
  | range (start stop step : Int)
  | builtin (name : String)

/-- The type name of a value, as returned by `v.Type()` (line 66). -/
def Value.typeName : Value → String
  | .none => "NoneType"
  | .bool _ => "bool"
  | .int _ => "int"
  | .str _ => "string"
  | .list _ => "list"
  | .range _ _ _ => "range"
  | .builtin _ => "builtin_function_or_method"

/-- Escape one character inside a double-quoted Starlark string literal. -/
def quoteChar (c : Char) : List Char :=
  if c = '"' then ['\\', '"']
  else if c = '\\' then ['\\', '\\']
  else if c = '\n' then ['\\', 'n']
  else if c = '\r' then ['\\', 'r']
  else if c = '\t' then ['\\', 't']
  else [c]

/-- A string as a double-quoted literal. -/
def quote (s : String) : String :=
  String.mk ('"' :: (s.toList.flatMap quoteChar ++ ['"']))

mutual
/-- The display string of a value, as returned by `v.String()` (line 66). -/
def Value.display : Value → String
  | .none => "None"
  | .bool b => if b then "True" else "False"
  | .int n => toString n
  | .str s => quote s
  | .list xs => "[" ++ Value.displayList xs ++ "]"
  | .range start stop step =>
      if step = 1 then
        if start = 0 then "range(" ++ toString stop ++ ")"
        else "range(" ++ toString start ++ ", " ++ toString stop ++ ")"
      else "range(" ++ toString start ++ ", " ++ toString stop ++ ", " ++ toString step ++ ")"
  | .builtin name => "<built-in function " ++ name ++ ">"
/-- The elements of a list, separated by a comma and a blank. -/
def Value.displayList : List Value → String
  | [] => ""
  | [v] => v.display
  | v :: w :: rest => v.display ++ ", " ++ Value.displayList (w :: rest)
end

/-- The string conversion `print` applies: a string is written unquoted. -/
def Value.printString : Value → String
  | .str s => s
  | v => v.display

/-! ## Outcomes of Go calls -/

/-- A Go call returns a value, returns an error, or does not return: it panics,
or the runtime ends the process with a fatal error. -/
inductive Outcome (ε α : Type) where
  | ok (a : α)
  | error (e : ε)
  | panic (msg : String)

/-! ## Argument unpacker -/

/-- The errors of the argument unpacker. -/
inductive BindError where
  | tooManyPositional (fn : String) (got want : Nat)
  | unexpectedKeyword (fn kw : String)
  | multipleValues (fn param : String)
  | missingRequired (fn param : String)
  | projection (fn param expected actual : String)
  | outOfRange (fn param : String) (n : Int)
  deriving DecidableEq

/-- The message of an unpacker error, as `err.Error()`. -/
def BindError.Error : BindError → String
  | .tooManyPositional fn got want =>
      fn ++ ": got " ++ toString got ++ " arguments, want at most " ++ toString want
  | .unexpectedKeyword fn kw => fn ++ ": unexpected keyword argument " ++ kw
  | .multipleValues fn param => fn ++ ": got multiple values for keyword argument " ++ param
  | .missingRequired fn param => fn ++ ": missing required argument " ++ param
  | .projection fn param expected actual =>
      fn ++ ": for parameter " ++ param ++ ": got " ++ actual ++ ", want " ++ expected
  | .outOfRange fn param n =>
      fn ++ ": for parameter " ++ param ++ ": " ++ toString n ++ " out of range"

/-- A Go variable handed to the unpacker by pointer: its native type and its
current value, which is the default of the parameter. -/
inductive HostVar where
  | string (v : String)
  | int (v : Int)
  deriving DecidableEq

/-- Two Go variables have the same native type. -/
def HostVar.sameType : HostVar → HostVar → Bool
  | .string _, .string _ => true
  | .int _, .int _ => true
  | _, _ => false

/-- The largest value of Go's `int`. -/
def maxInt : Int := 2 ^ 63 - 1

/-- The smallest value of Go's `int`. -/
def minInt : Int := -(2 ^ 63)

/-- Modelled from the spec: the parameter spec of §4.2, "REQUIRED (bare name) or
OPTIONAL (name suffixed with a marker)"; the marker of `src/main.go` is `?`
(`"n?"`, line 33).  Returns the name and whether the parameter is optional. -/
def paramName (spec : String) : String × Bool :=
  match spec.toList.reverse with
  | '?' :: rest => (String.mk rest.reverse, true)
  | _ => (spec, false)

/-- Modelled from the spec: step 1 of §4.2, "Positional arguments fill
parameter slots left to right"; the remaining slots are empty. -/
def fillPositional (args : List Value) (nparams : Nat) : List (Option Value) :=
  args.map some ++ List.replicate (nparams - args.length) none

/-- The position of the declared parameter a keyword names, if there is one. -/
def paramIndex (kw : String) : List String → Option Nat
  | [] => none
  | name :: rest => if name = kw then some 0 else (paramIndex kw rest).map (· + 1)

/-- The value a slot holds, if it holds one. -/
def slotAt : List (Option Value) → Nat → Option Value
  | [], _ => none
  | slot :: _, 0 => slot
  | _ :: rest, i + 1 => slotAt rest i

/-- Modelled from the spec: steps 2 and 4 of §4.2.  Each keyword argument fills
the slot of the parameter it names; a keyword that names no declared parameter
is an error, and so is a slot that already holds a value. -/
def fillKeywords (fnname : String) (names : List String) :
    List (String × Value) → List (Option Value) → Except BindError (List (Option Value))
  | [], slots => .ok slots
  | (kw, v) :: rest, slots =>
      match paramIndex kw names with
      | none => .error (.unexpectedKeyword fnname kw)
      | some i =>
          match slotAt slots i with
          | some _ => .error (.multipleValues fnname kw)
          | none => fillKeywords fnname names rest (slots.set i (some v))

/-- Modelled from the spec: step 3 of §4.2, "every REQUIRED parameter must have
received a value ...; if not, fail with missing required argument". -/
def checkRequired (fnname : String) :
    List (String × Bool) → List (Option Value) → Except BindError Unit
  | (name, false) :: _, none :: _ => .error (.missingRequired fnname name)
  | _ :: params, _ :: slots => checkRequired fnname params slots
  | _, _ => .ok ()

/-- Modelled from the spec: the binding algorithm of §4.2, steps 1 to 4, for
the declared parameters `params` (name, optional). -/
def bindArgs (fnname : String) (params : List (String × Bool)) (args : List Value)
    (kwargs : List (String × Value)) : Except BindError (List (Option Value)) :=
  if args.length > params.length then
    .error (.tooManyPositional fnname args.length params.length)
  else
    match fillKeywords fnname (params.map Prod.fst) kwargs
        (fillPositional args params.length) with
    | .error e => .error e
    | .ok slots =>
        match checkRequired fnname params slots with
        | .error e => .error e
        | .ok () => .ok slots

/-- Modelled from the spec: projection of §4.1 into the native type of the
host variable; it "fails ... if the runtime kind of the Value does not match the
expected kind; the error must name the parameter, the expected kind, and the
actual kind".  An Integer that does not fit Go's `int` fails as well. -/
def project (fnname name : String) : HostVar → Value → Except BindError HostVar
  | .string _, .str s => .ok (.string s)
  | .string _, v => .error (.projection fnname name "string" v.typeName)
  | .int _, .int n =>
      if minInt ≤ n ∧ n ≤ maxInt then .ok (.int n) else .error (.outOfRange fnname name n)
  | .int _, v => .error (.projection fnname name "int" v.typeName)

/-- Modelled from the spec: step 5 of §4.2 and the projection that follows it.
A slot without a value keeps the variable (its default); a bound slot is
projected, and the first failure, in parameter order, is the error. -/
def projectAll (fnname : String) :
    List (String × HostVar) → List (Option Value) → Except BindError (List HostVar)
  | [], _ => .ok []
  | (_, ptr) :: pairs, [] =>
      match projectAll fnname pairs [] with
      | .error e => .error e
      | .ok vars => .ok (ptr :: vars)
  | (_, ptr) :: pairs, none :: slots =>
      match projectAll fnname pairs slots with
      | .error e => .error e
      | .ok vars => .ok (ptr :: vars)
  | (name, ptr) :: pairs, some v :: slots =>
      match project fnname name ptr v with
      | .error e => .error e
      | .ok var =>
          match projectAll fnname pairs slots with
          | .error e => .error e
          | .ok vars => .ok (var :: vars)

/-- Modelled from the spec: `starlark.UnpackArgs(fnname, args, kwargs, pairs...)`,
the Argument Unpacker of §4.2, which is library code outside `src/`.  `pairs`
lists, per parameter, the parameter spec and the host variable that receives the
value.  The result is the new content of the host variables, in order, or the
error. -/
def UnpackArgs (fnname : String) (args : List Value) (kwargs : List (String × Value))
    (pairs : List (String × HostVar)) : Except BindError (List HostVar) :=
  let named := pairs.map fun p => ((paramName p.1).1, p.2)
  match bindArgs fnname (pairs.map fun p => paramName p.1) args kwargs with
  | .error e => .error e
  | .ok slots => projectAll fnname named slots

/-! ## Go's `strings.Repeat` -/

/-- The string `s` written `n` times in a row. -/
def concatN (s : String) : Nat → String
  | 0 => ""
  | n + 1 => s ++ concatN s n

/-- The largest object the Go runtime allocates on a 64-bit machine, in bytes;
`make` panics above it. -/
def runtimeMaxAlloc : Nat := 2 ^ 48

/-- Go's `strings.Repeat(s, count)` on a machine that can allocate a result of
up to `mem` bytes: "It panics if count is negative or if the result of
(len(s) * count) overflows."  `len(s)` is the length in bytes.  The counts 0 and
1 and the empty string return without allocating; otherwise the result of
`len(s) * count` bytes is allocated, which panics above the limit of the runtime
and is fatal when the memory of the machine does not suffice. -/
def stringsRepeat (mem : Nat) (s : String) (count : Int) : Except String String :=
  if count = 0 then .ok ""
  else if count = 1 then .ok s
  else if count < 0 then .error "strings: negative Repeat count"
  else if (s.utf8ByteSize : Int) * count > maxInt then
    .error "strings: Repeat output length overflow"
  else if s = "" then .ok ""
  else if (s.utf8ByteSize : Int) * count > (runtimeMaxAlloc : Int) then
    .error "runtime error: makeslice: len out of range"
  else if (s.utf8ByteSize : Int) * count > (mem : Int) then
    .error "fatal error: runtime: out of memory"
  else .ok (concatN s count.toNat)

/-! ## The builtins of `src/main.go` -/

/-- The function `storeCode` (lines 23-27).  The parameter spec passed to
`UnpackArgs` is the current value of `contractName`, `"c"`; the error it returns
is dropped, and so is the variable. -/
def storeCode (bName : String) (args : List Value) (kwargs : List (String × Value)) :
    Outcome BindError Value :=
  let contractName := "c"
  let _unused := UnpackArgs bName args kwargs [(contractName, .string contractName)]
  .ok (.int 2)

/-- Line 37: the result of `strings.Repeat` as a Starlark String; when
`strings.Repeat` does not return, neither does the builtin. -/
def repeatResult : Except String String → Outcome BindError Value
  | .ok r => .ok (.str r)
  | .error msg => .panic msg

/-- The function `repeat` (lines 30-38) with the initial value of `n` (line 32)
as a parameter `d`, on a machine that can allocate a result of up to `mem`
bytes.  The last branch is never taken (`UnpackArgs_repeat_shape`). -/
def repeatWithDefault (mem : Nat) (d : Int) (bName : String) (args : List Value)
    (kwargs : List (String × Value)) : Outcome BindError Value :=
  match UnpackArgs bName args kwargs [("s", .string ""), ("n?", .int d)] with
  | .error err => .error err
  | .ok [.string s, .int n] => repeatResult (stringsRepeat mem s n)
  | .ok _ => .panic "unreachable: UnpackArgs keeps the types of the host variables"

/-- The function `repeat` (lines 30-38): `var s string`, `var n int = 1`.  The
memory of the machine is taken to suffice up to the limit of the runtime. -/
def «repeat» (bName : String) (args : List Value) (kwargs : List (String × Value)) :
    Outcome BindError Value :=
  repeatWithDefault runtimeMaxAlloc 1 bName args kwargs

/-! ## The Starlark fragment of the embedded program -/

/-- The binary operators the embedded program uses. -/
inductive BinOp where
  | add
  | mul

/-- Expressions of the fragment. -/
inductive Expr where
  | str (s : String)
  | int (n : Int)
  | ident (name : String)
  | binary (op : BinOp) (x y : Expr)
  | call (fn : Expr) (args : List Expr) (kwargs : List (String × Expr))
  | comprehension (body : Expr) (var : String) (iter : Expr)

/-- Top-level statements of the fragment, each with the line it starts on. -/
inductive Stmt where
  | assign (line : Nat) (name : String) (rhs : Expr)
  | expr (line : Nat) (e : Expr)

/-- The line a statement starts on. -/
def Stmt.line : Stmt → Nat
  | .assign line _ _ => line
  | .expr line _ => line

/-- One frame of a call stack. -/
structure Frame where
  sourceName : String
  line : Nat
  column : Nat
  description : String

/-- The error `*starlark.EvalError`: a message and the call stack, innermost
frame last. -/
structure EvalError where
  Msg : String
  CallStack : List Frame

/-- Modelled from the spec: the Reporter of §4.5, "renders each stack frame as
`<sourceName>:<line>:<column>: in <frameDescription>`, innermost frame last, and
appends the top-level message last".  It stands for `evalErr.Backtrace()`
(line 57), which is library code outside `src/`. -/
def EvalError.Backtrace (e : EvalError) : String :=
  String.join (e.CallStack.map fun f =>
      f.sourceName ++ ":" ++ toString f.line ++ ":" ++ toString f.column ++ ": in "
        ++ f.description ++ "\n")
    ++ e.Msg

/-- The errors `starlark.ExecFile` returns: an `*EvalError`, or an error of
another type (a syntax or name-resolution error). -/
inductive ExecError where
  | eval (e : EvalError)
  | other (msg : String)

/-- The message of an error, as `err.Error()`. -/
def ExecError.Error : ExecError → String
  | .eval e => e.Msg
  | .other msg => msg

/-- The thread of line 41: its name and its print sink, which maps a message and
the standard output written so far to the standard output after the call. -/
structure Thread where
  Name : String
  Print : String → String → String

/-- What an execution has done so far: the global bindings, the messages handed
to the print sink, and the standard output. -/
structure Interp where
  globals : List (String × Value)
  printed : List String
  stdout : String

/-- A Go builtin: `func(thread, b, args, kwargs) (Value, error)`, applied to the
name of the builtin `b.Name()`. -/
abbrev GoBuiltin := String → List Value → List (String × Value) → Outcome BindError Value

/-- The predeclared environment of line 47: the values by name, and the Go
function behind each builtin value, by the name of the builtin. -/
structure StringDict where
  values : List (String × Value)
  fns : List (String × GoBuiltin)

/-- The name bindings of comprehension variables. -/
abbrev Locals := List (String × Value)

/-- An evaluation error raised in the top-level statement on `line`; the frame
records the start of the statement. -/
def evalError (file : String) (line : Nat) (msg : String) : EvalError :=
  { Msg := msg, CallStack := [⟨file, line, 1, "<toplevel>"⟩] }

/-- An error returned by the builtin `name`, wrapped as the innermost frame. -/
def builtinError (file : String) (line : Nat) (name msg : String) : EvalError :=
  { Msg := msg, CallStack := [⟨file, line, 1, "<toplevel>"⟩, ⟨"<builtin>", 0, 0, name⟩] }

/-- The names of the universe: the builtins and constants of the language that
the fragment knows. -/
def Universe : List (String × Value) :=
  [("None", .none), ("True", .bool true), ("False", .bool false),
   ("print", .builtin "print"), ("range", .builtin "range")]

/-- Name resolution: comprehension variables, then the globals the file
assigns, then the predeclared environment, then the universe. -/
def lookupName (file : String) (line : Nat) (fileGlobals : List String)
    (predeclared : StringDict) (name : String) (locals : Locals) (st : Interp) :
    Outcome EvalError Value :=
  match locals.lookup name with
  | some v => .ok v
  | none =>
      if fileGlobals.contains name then
        match st.globals.lookup name with
        | some v => .ok v
        | none => .error (evalError file line
            ("global variable " ++ name ++ " referenced before assignment"))
      else
        match predeclared.values.lookup name with
        | some v => .ok v
        | none =>
            match Universe.lookup name with
            | some v => .ok v
            | none => .error (evalError file line ("undefined: " ++ name))

/-- The number of elements of `range(start, stop, step)`. -/
def rangeLen (start stop step : Int) : Nat :=
  if step > 0 then
    if stop > start then ((stop - start + step - 1) / step).toNat else 0
  else if step < 0 then
    if start > stop then ((start - stop + (-step) - 1) / (-step)).toNat else 0
  else 0

/-- The elements an iteration over a value yields, if it is iterable. -/
def iterate : Value → Option (List Value)
  | .list xs => some xs
  | .range start stop step =>
      some ((List.range (rangeLen start stop step)).map fun i => .int (start + i * step))
  | _ => none

/-- The largest size of a repeated string or list. -/
def maxAlloc : Int := 2 ^ 30

/-- The repeat count of `sequence * int` for a sequence of `len > 0` elements:
the count as a natural number, or the error message. -/
def repeatCount (len : Nat) (n : Int) : Except String Nat :=
  if n < -(2 ^ 31) ∨ n ≥ 2 ^ 31 then .error ("repeat count " ++ toString n ++ " too large")
  else if n < 1 then .ok 0
  else if (len : Int) * n ≥ maxAlloc then
    .error ("excessive repeat (" ++ toString len ++ " * " ++ toString n ++ " elements)")
  else .ok n.toNat

/-- The Starlark operation `string * int`. -/
def stringTimes (s : String) (n : Int) : Except String Value :=
  if s = "" then .ok (.str "")
  else
    match repeatCount s.utf8ByteSize n with
    | .error msg => .error msg
    | .ok k => .ok (.str (concatN s k))

/-- The Starlark operation `list * int`. -/
def listTimes (xs : List Value) (n : Int) : Except String Value :=
  if xs.isEmpty then .ok (.list [])
  else
    match repeatCount xs.length n with
    | .error msg => .error msg
    | .ok k => .ok (.list (List.replicate k xs).flatten)

/-- The binary operators `+` and `*` on the values of the fragment. -/
def binaryOp : BinOp → Value → Value → Except String Value
  | .add, .int a, .int b => .ok (.int (a + b))
  | .add, .str a, .str b => .ok (.str (a ++ b))
  | .add, .list a, .list b => .ok (.list (a ++ b))
  | .add, a, b => .error ("unknown binary op: " ++ a.typeName ++ " + " ++ b.typeName)
  | .mul, .int a, .int b => .ok (.int (a * b))
  | .mul, .str s, .int n => stringTimes s n
  | .mul, .int n, .str s => stringTimes s n
  | .mul, .list xs, .int n => listTimes xs n
  | .mul, .int n, .list xs => listTimes xs n
  | .mul, a, b => .error ("unknown binary op: " ++ a.typeName ++ " * " ++ b.typeName)

/-- The universe builtin `print(*args, sep=" ")`: `sep` is unpacked from the
keyword arguments, and the arguments, converted to strings and joined by `sep`,
are handed to the print sink of the thread.  The unpacker keeps the type of the
host variable (`projectAll_sameType`), so the second branch is never taken. -/
def builtinPrint (thread : Thread) (args : List Value) (kwargs : List (String × Value))
    (st : Interp) : Interp × Except BindError Value :=
  match UnpackArgs "print" [] kwargs [("sep?", .string " ")] with
  | .ok [.string sep] =>
      let msg := sep.intercalate (args.map Value.printString)
      ({ st with printed := st.printed ++ [msg], stdout := thread.Print msg st.stdout },
        .ok .none)
  | .ok _ => (st, .ok .none)
  | .error err => (st, .error err)

/-- The universe builtin `range(stop)`, `range(start, stop)` and
`range(start, stop, step)`. -/
def builtinRange (args : List Value) (kwargs : List (String × Value)) : Except String Value :=
  match kwargs, args with
  | [], [.int stop] => .ok (.range 0 stop 1)
  | [], [.int start, .int stop] => .ok (.range start stop 1)
  | [], [.int start, .int stop, .int step] =>
      if step = 0 then .error "range: step argument must not be zero"
      else .ok (.range start stop step)
  | _, _ => .error "range: want 1 to 3 int arguments"

/-- Calling a value: a builtin of the predeclared environment runs its Go
function, a builtin of the universe runs here; a Go error becomes an
`EvalError` with the builtin as innermost frame, a Go panic is passed on. -/
def callValue (thread : Thread) (file : String) (line : Nat) (predeclared : StringDict)
    (fn : Value) (args : List Value) (kwargs : List (String × Value)) (st : Interp) :
    Interp × Outcome EvalError Value :=
  match fn with
  | .builtin name =>
      match predeclared.fns.lookup name with
      | some goFn =>
          match goFn name args kwargs with
          | .ok v => (st, .ok v)
          | .error err => (st, .error (builtinError file line name err.Error))
          | .panic msg => (st, .panic msg)
      | none =>
          if name = "print" then
            match builtinPrint thread args kwargs st with
            | (st1, .ok v) => (st1, .ok v)
            | (st1, .error err) => (st1, .error (builtinError file line name err.Error))
          else if name = "range" then
            match builtinRange args kwargs with
            | .ok v => (st, .ok v)
            | .error msg => (st, .error (builtinError file line name msg))
          else (st, .error (evalError file line ("undefined builtin: " ++ name)))
  | v => (st, .error (evalError file line ("invalid call of non-function (" ++ v.typeName ++ ")")))

/-- The fixed surroundings of an evaluation: the thread, the file name, the
globals the file assigns, and the predeclared environment. -/
structure Context where
  thread : Thread
  file : String
  fileGlobals : List String
  predeclared : StringDict

mutual
/-- Evaluation of an expression of the statement on `line`.  The operands of a
binary operator and the arguments of a call are evaluated left to right. -/
def evalExpr (c : Context) (line : Nat) :
    Expr → Locals → Interp → Interp × Outcome EvalError Value
  | .str s, _, st => (st, .ok (.str s))
  | .int n, _, st => (st, .ok (.int n))
  | .ident name, locals, st =>
      (st, lookupName c.file line c.fileGlobals c.predeclared name locals st)
  | .binary op x y, locals, st =>
      match evalExpr c line x locals st with
      | (st1, .error e) => (st1, .error e)
      | (st1, .panic msg) => (st1, .panic msg)
      | (st1, .ok a) =>
          match evalExpr c line y locals st1 with
          | (st2, .error e) => (st2, .error e)
          | (st2, .panic msg) => (st2, .panic msg)
          | (st2, .ok b) =>
              match binaryOp op a b with
              | .ok v => (st2, .ok v)
              | .error msg => (st2, .error (evalError c.file line msg))
  | .call fn args kwargs, locals, st =>
      match evalExpr c line fn locals st with
      | (st1, .error e) => (st1, .error e)
      | (st1, .panic msg) => (st1, .panic msg)
      | (st1, .ok f) =>
          match evalArgs c line args locals st1 with
          | (st2, .error e) => (st2, .error e)
          | (st2, .panic msg) => (st2, .panic msg)
          | (st2, .ok vs) =>
              match evalKwargs c line kwargs locals st2 with
              | (st3, .error e) => (st3, .error e)
              | (st3, .panic msg) => (st3, .panic msg)
              | (st3, .ok kvs) => callValue c.thread c.file line c.predeclared f vs kvs st3
  | .comprehension body var iter, locals, st =>
      match evalExpr c line iter locals st with
      | (st1, .error e) => (st1, .error e)
      | (st1, .panic msg) => (st1, .panic msg)
      | (st1, .ok it) =>
          match iterate it with
          | none => (st1, .error (evalError c.file line (it.typeName ++ " value is not iterable")))
          | some elems =>
              match elems.foldl
                  (fun (acc : Interp × Outcome EvalError (List Value)) x =>
                    match acc with
                    | (s, .ok vs) =>
                        match evalExpr c line body ((var, x) :: locals) s with
                        | (s1, .ok v) => (s1, .ok (vs ++ [v]))
                        | (s1, .error e) => (s1, .error e)
                        | (s1, .panic msg) => (s1, .panic msg)
                    | stopped => stopped)
                  (st1, .ok []) with
              | (st2, .ok vs) => (st2, .ok (.list vs))
              | (st2, .error e) => (st2, .error e)
              | (st2, .panic msg) => (st2, .panic msg)
/-- Evaluation of the positional arguments of a call. -/
def evalArgs (c : Context) (line : Nat) :
    List Expr → Locals → Interp → Interp × Outcome EvalError (List Value)
  | [], _, st => (st, .ok [])
  | e :: es, locals, st =>
      match evalExpr c line e locals st with
      | (st1, .error err) => (st1, .error err)
      | (st1, .panic msg) => (st1, .panic msg)
      | (st1, .ok v) =>
          match evalArgs c line es locals st1 with
          | (st2, .error err) => (st2, .error err)
          | (st2, .panic msg) => (st2, .panic msg)
          | (st2, .ok vs) => (st2, .ok (v :: vs))
/-- Evaluation of the keyword arguments of a call. -/
def evalKwargs (c : Context) (line : Nat) :
    List (String × Expr) → Locals → Interp → Interp × Outcome EvalError (List (String × Value))
  | [], _, st => (st, .ok [])
  | (kw, e) :: es, locals, st =>
      match evalExpr c line e locals st with
      | (st1, .error err) => (st1, .error err)
      | (st1, .panic msg) => (st1, .panic msg)
      | (st1, .ok v) =>
          match evalKwargs c line es locals st1 with
          | (st2, .error err) => (st2, .error err)
          | (st2, .panic msg) => (st2, .panic msg)
          | (st2, .ok kvs) => (st2, .ok ((kw, v) :: kvs))
end

mutual
/-- Static name resolution of an expression: the first name that is neither a
comprehension variable in scope nor in `known`, if there is one. -/
def undefinedName (known : List String) : Expr → List String → Option String
  | .str _, _ => none
  | .int _, _ => none
  | .ident name, scope => if scope.contains name || known.contains name then none else some name
  | .binary _ x y, scope => (undefinedName known x scope).orElse fun _ => undefinedName known y scope
  | .call fn args kwargs, scope =>
      (undefinedName known fn scope).orElse fun _ =>
        (undefinedNameArgs known args scope).orElse fun _ => undefinedNameKwargs known kwargs scope
  | .comprehension body var iter, scope =>
      (undefinedName known iter scope).orElse fun _ => undefinedName known body (var :: scope)
/-- Static name resolution of the positional arguments of a call. -/
def undefinedNameArgs (known : List String) : List Expr → List String → Option String
  | [], _ => none
  | e :: es, scope => (undefinedName known e scope).orElse fun _ => undefinedNameArgs known es scope
/-- Static name resolution of the keyword arguments of a call. -/
def undefinedNameKwargs (known : List String) : List (String × Expr) → List String → Option String
  | [], _ => none
  | (_, e) :: es, scope =>
      (undefinedName known e scope).orElse fun _ => undefinedNameKwargs known es scope
end

/-- The expression of a statement. -/
def Stmt.rhs : Stmt → Expr
  | .assign _ _ rhs => rhs
  | .expr _ e => e

/-- The global names a file assigns, in order. -/
def assignedNames : List Stmt → List String
  | [] => []
  | .assign _ name _ :: rest => name :: assignedNames rest
  | .expr _ _ :: rest => assignedNames rest

/-- The static check of a file before it runs: no global is assigned twice and
every name is defined. -/
def resolveFile (file : String) (data : List Stmt) (predeclared : StringDict) : Option String :=
  let globals := assignedNames data
  let known := globals ++ predeclared.values.map Prod.fst ++ Universe.map Prod.fst
  if ¬ globals.Nodup then some (file ++ ": cannot reassign global")
  else
    data.findSome? fun stmt =>
      (undefinedName known stmt.rhs []).map fun name =>
        file ++ ":" ++ toString stmt.line ++ ": undefined: " ++ name

/-- Binding a global: an existing binding is replaced, a new one is added. -/
def setGlobal : List (String × Value) → String → Value → List (String × Value)
  | [], name, v => [(name, v)]
  | (k, w) :: rest, name, v =>
      if k = name then (k, v) :: rest else (k, w) :: setGlobal rest name v

/-- Execution of the statements of a file, in order; the first error or panic
ends it. -/
def execStmts (c : Context) : List Stmt → Interp → Interp × Outcome EvalError Unit
  | [], st => (st, .ok ())
  | .assign line name rhs :: rest, st =>
      match evalExpr c line rhs [] st with
      | (st1, .error e) => (st1, .error e)
      | (st1, .panic msg) => (st1, .panic msg)
      | (st1, .ok v) => execStmts c rest { st1 with globals := setGlobal st1.globals name v }
  | .expr line e :: rest, st =>
      match evalExpr c line e [] st with
      | (st1, .error err) => (st1, .error err)
      | (st1, .panic msg) => (st1, .panic msg)
      | (st1, .ok _) => execStmts c rest st1

/-- The call `starlark.ExecFile(thread, filename, data, predeclared)` (line 54),
with the file given as its statements and `stdout` the standard output written
before the call.  The globals of the returned state are the `globals` Go
receives (a partial map when the execution fails), the outcome is `err`; a panic
of a builtin is passed on to the caller. -/
def ExecFile (thread : Thread) (filename : String) (data : List Stmt)
    (predeclared : StringDict) (stdout : String) : Interp × Outcome ExecError Unit :=
  let st : Interp := { globals := [], printed := [], stdout := stdout }
  match resolveFile filename data predeclared with
  | some msg => (st, .error (.other msg))
  | none =>
      match execStmts ⟨thread, filename, assignedNames data, predeclared⟩ data st with
      | (st1, .ok ()) => (st1, .ok ())
      | (st1, .error e) => (st1, .error (.eval e))
      | (st1, .panic msg) => (st1, .panic msg)

/-! ## The host program -/

/-- Byte-wise order of two strings, on their characters. -/
def ltChars : List Char → List Char → Bool
  | [], [] => false
  | [], _ :: _ => true
  | _ :: _, [] => false
  | a :: as, b :: bs =>
      if a.toNat < b.toNat then true
      else if b.toNat < a.toNat then false
      else ltChars as bs

/-- Insertion of a name into a sorted list of names. -/
def insertSorted (name : String) : List String → List String
  | [] => [name]
  | k :: rest =>
      if ltChars k.toList name.toList then k :: insertSorted name rest else name :: k :: rest

/-- The method `globals.Keys()` (line 64): the names, sorted. -/
def Keys (globals : List (String × Value)) : List String :=
  (globals.map Prod.fst).foldr insertSorted []

/-- How the host program ends: it returns, it exits through `log.Fatal` with a
message, or it dies of a panic. -/
inductive Exit where
  | returned
  | fatal (msg : String)
  | panic (msg : String)
  deriving DecidableEq

/-- What a run of the host program shows: the messages handed to the print
sink, the standard output, and how it ended. -/
structure HostRun where
  printed : List String
  stdout : String
  exit : Exit
  deriving DecidableEq

/-- One line of the listing of globals (line 66). -/
def globalLine (globals : List (String × Value)) (name : String) : String :=
  match globals.lookup name with
  | some v => name ++ " (" ++ v.typeName ++ ") = " ++ v.display ++ "\n"
  | none => ""

/-- The listing of globals (lines 63-67). -/
def globalsListing (globals : List (String × Value)) : String :=
  "\nGlobals:\n" ++ String.join ((Keys globals).map (globalLine globals))

/-- Lines 55-67 of `ExampleExecFile`: what the host does with the result of
`ExecFile`. -/
def ExampleExecFile.finish : Interp × Outcome ExecError Unit → HostRun
  | (st, .panic msg) => { printed := st.printed, stdout := st.stdout, exit := .panic msg }
  | (st, .error (.eval evalErr)) =>
      { printed := st.printed, stdout := st.stdout, exit := .fatal evalErr.Backtrace }
  | (st, .error err) =>
      { printed := st.printed, stdout := st.stdout, exit := .fatal err.Error }
  | (st, .ok ()) =>
      { printed := st.printed, stdout := st.stdout ++ globalsListing st.globals,
        exit := .returned }

/-- The program text `data` (lines 14-21), as its statements.  The text starts
with a line break, so the first statement is on line 2. -/
def ExampleExecFile.data : List Stmt :=
  [ .assign 2 "code_id"
      (.call (.ident "store_code") [.str "sg721_base.wasm", .str "sg721_base"] []),
    .expr 3 (.call (.ident "print") [.ident "code_id"] []),
    .expr 4 (.call (.ident "print") [.binary .add (.ident "greeting") (.str ", world")] []),
    .expr 5 (.call (.ident "print") [.call (.ident "repeat") [.str "one"] []] []),
    .expr 6 (.call (.ident "print") [.call (.ident "repeat") [.str "mur", .int 2] []] []),
    .assign 7 "squares"
      (.comprehension (.binary .mul (.ident "x") (.ident "x")) "x"
        (.call (.ident "range") [.int 10] [])) ]

/-- The thread of lines 41-44: `Print` writes the message and a line break to
standard output. -/
def ExampleExecFile.thread : Thread :=
  { Name := "example", Print := fun msg out => out ++ msg ++ "\n" }

/-- The predeclared environment of lines 47-51. -/
def ExampleExecFile.predeclared : StringDict :=
  { values := [("greeting", .str "hello"), ("repeat", .builtin "repeat"),
      ("store_code", .builtin "store_code")],
    fns := [("repeat", «repeat»), ("store_code", storeCode)] }

/-- The function `ExampleExecFile` (lines 13-76). -/
def ExampleExecFile : HostRun :=
  ExampleExecFile.finish
    (ExecFile ExampleExecFile.thread "apparent/filename.star" ExampleExecFile.data
      ExampleExecFile.predeclared "")

/-! ## Lemmas on the unpacker and on `strings.Repeat` -/

theorem paramName_s : paramName "s" = ("s", false) := by rfl

theorem paramName_n : paramName "n?" = ("n", true) := by rfl

/-- The unpacking `repeat` performs, split into binding and projection. -/
theorem UnpackArgs_repeat (d : Int) (fn : String) (args : List Value)
    (kwargs : List (String × Value)) :
    UnpackArgs fn args kwargs [("s", .string ""), ("n?", .int d)] =
      match bindArgs fn [("s", false), ("n", true)] args kwargs with
      | .error e => .error e
      | .ok slots => projectAll fn [("s", .string ""), ("n", .int d)] slots := by
  simp [UnpackArgs, paramName_s, paramName_n]

/-- Projection keeps the native type of the host variable. -/
theorem project_sameType (fn name : String) (ptr var : HostVar) (v : Value)
    (h : project fn name ptr v = .ok var) : ptr.sameType var = true := by
  cases ptr <;> cases v <;> simp only [project] at h <;> first
    | (cases h; done)
    | (cases h; rfl)
    | (split at h <;> first | (cases h; done) | (cases h; rfl))

/-- The unpacker keeps the native types of all host variables. -/
theorem projectAll_sameType (fn : String) :
    ∀ (pairs : List (String × HostVar)) (slots : List (Option Value)) (vars : List HostVar),
      projectAll fn pairs slots = .ok vars →
      List.Forall₂ (fun p var => p.2.sameType var = true) pairs vars := by
  intro pairs
  induction pairs with
  | nil =>
      intro slots vars h
      simp [projectAll] at h
      subst h
      exact List.Forall₂.nil
  | cons p pairs ih =>
      intro slots vars h
      obtain ⟨name, ptr⟩ := p
      have hself : ptr.sameType ptr = true := by cases ptr <;> rfl
      cases slots with
      | nil =>
          rw [projectAll] at h
          split at h
          · cases h
          · rename_i rest hrest
            cases h
            exact List.Forall₂.cons hself (ih _ _ hrest)
      | cons slot slots =>
          cases slot with
          | none =>
              rw [projectAll] at h
              split at h
              · cases h
              · rename_i rest hrest
                cases h
                exact List.Forall₂.cons hself (ih _ _ hrest)
          | some v =>
              rw [projectAll] at h
              cases hvar : project fn name ptr v with
              | error e => rw [hvar] at h; cases h
              | ok var =>
                  rw [hvar] at h
                  cases hrest : projectAll fn pairs slots with
                  | error e => rw [hrest] at h; cases h
                  | ok rest =>
                      rw [hrest] at h
                      cases h
                      exact List.Forall₂.cons (project_sameType fn name ptr var v hvar)
                        (ih _ _ hrest)

/-- The host variables `repeat` gets back are a string and an int, so the last
branch of its `match` is never taken. -/
theorem UnpackArgs_repeat_shape (d : Int) (fn : String) (args : List Value)
    (kwargs : List (String × Value)) (vars : List HostVar)
    (h : UnpackArgs fn args kwargs [("s", .string ""), ("n?", .int d)] = .ok vars) :
    ∃ s n, vars = [.string s, .int n] := by
  rw [UnpackArgs_repeat] at h
  split at h
  · cases h
  · have hall := projectAll_sameType fn _ _ _ h
    cases hall with
    | cons h1 hrest =>
        cases hrest with
        | cons h2 hnil =>
            cases hnil
            rename_i v1 v2
            cases v1 <;> cases v2 <;> simp [HostVar.sameType] at h1 h2
            exact ⟨_, _, rfl⟩

/-- The keyword step keeps the number of slots. -/
theorem fillKeywords_length (fn : String) (names : List String) :
    ∀ (kwargs : List (String × Value)) (slots bound : List (Option Value)),
      fillKeywords fn names kwargs slots = .ok bound → bound.length = slots.length := by
  intro kwargs
  induction kwargs with
  | nil => intro slots bound h; simp [fillKeywords] at h; subst h; rfl
  | cons p kwargs ih =>
      intro slots bound h
      obtain ⟨k, w⟩ := p
      rw [fillKeywords] at h
      split at h
      · cases h
      · split at h
        · cases h
        · rw [ih _ _ h, List.length_set]

/-- Every successful binding for `repeat` has two slots, and the slot of the
required parameter `s` holds a value. -/
theorem bindArgs_repeat_shape (fn : String) (args : List Value)
    (kwargs : List (String × Value)) (slots : List (Option Value))
    (h : bindArgs fn [("s", false), ("n", true)] args kwargs = .ok slots) :
    ∃ vs vn, slots = [some vs, vn] := by
  unfold bindArgs at h
  split at h
  · cases h
  · rename_i hlen
    split at h
    · cases h
    · rename_i bound hbound
      split at h
      · cases h
      · rename_i hreq
        cases h
        have hl := fillKeywords_length fn _ _ _ _ hbound
        have hlen2 : args.length ≤ 2 := by simpa using hlen
        have h2 : slots.length = 2 := by
          rw [hl]
          simp [fillPositional]
          omega
        match slots, h2 with
        | [some vs, vn], _ => exact ⟨vs, vn, rfl⟩
        | [none, vn], _ => simp [checkRequired] at hreq

/-- A keyword that names no declared parameter makes the keyword step fail. -/
theorem fillKeywords_undeclared (fn : String) (names : List String) (kw : String) (v : Value)
    (post : List (String × Value)) (hkw : paramIndex kw names = none) :
    ∀ (pre : List (String × Value)) (slots : List (Option Value)),
      ∃ e, fillKeywords fn names (pre ++ (kw, v) :: post) slots = .error e := by
  intro pre
  induction pre with
  | nil =>
      intro slots
      refine ⟨.unexpectedKeyword fn kw, ?_⟩
      simp [fillKeywords, hkw]
  | cons p pre ih =>
      intro slots
      obtain ⟨k, w⟩ := p
      rw [List.cons_append, fillKeywords]
      split
      · exact ⟨_, rfl⟩
      · split
        · exact ⟨_, rfl⟩
        · exact ih _

/-- When the keywords before it bind, an undeclared keyword is the error. -/
theorem fillKeywords_first_undeclared (fn : String) (names : List String) (kw : String)
    (v : Value) (post : List (String × Value)) (hkw : paramIndex kw names = none) :
    ∀ (pre : List (String × Value)) (slots bound : List (Option Value)),
      fillKeywords fn names pre slots = .ok bound →
      fillKeywords fn names (pre ++ (kw, v) :: post) slots
        = .error (.unexpectedKeyword fn kw) := by
  intro pre
  induction pre with
  | nil => intro slots bound _; simp [fillKeywords, hkw]
  | cons p pre ih =>
      intro slots bound h
      obtain ⟨k, w⟩ := p
      rw [List.cons_append, fillKeywords]
      rw [fillKeywords] at h
      split
      · rename_i hk; rw [hk] at h; cases h
      · rename_i i hk
        rw [hk] at h
        simp only [] at h
        split
        · rename_i hs; rw [hs] at h; cases h
        · rename_i hs
          rw [hs] at h
          exact ih _ _ h

theorem paramIndex_undeclared (kw : String) (hs : kw ≠ "s") (hn : kw ≠ "n") :
    paramIndex kw ["s", "n"] = none := by
  simp [paramIndex, Ne.symm hs, Ne.symm hn]

theorem concatN_empty (k : Nat) : concatN "" k = "" := by
  induction k with
  | zero => rfl
  | succ k ih => simp [concatN, ih]

/-- The result of `strings.Repeat` for a count that is not negative and a
result the machine can allocate. -/
theorem stringsRepeat_nonneg (mem : Nat) (s : String) (n : Int) (h0 : 0 ≤ n)
    (hmem : (s.utf8ByteSize : Int) * n ≤ (mem : Int))
    (hlim : (s.utf8ByteSize : Int) * n ≤ (runtimeMaxAlloc : Int)) :
    stringsRepeat mem s n = .ok (concatN s n.toNat) := by
  unfold stringsRepeat
  by_cases hz : n = 0
  · subst hz; simp [concatN]
  · by_cases h1 : n = 1
    · subst h1; simp [concatN]
    · have hneg : ¬ n < 0 := not_lt.mpr h0
      have hfit : (s.utf8ByteSize : Int) * n ≤ maxInt := le_trans hlim (by decide)
      have hov : ¬ (s.utf8ByteSize : Int) * n > maxInt := not_lt.mpr hfit
      have hl : ¬ (s.utf8ByteSize : Int) * n > (runtimeMaxAlloc : Int) := not_lt.mpr hlim
      have hm : ¬ (s.utf8ByteSize : Int) * n > (mem : Int) := not_lt.mpr hmem
      by_cases hs : s = ""
      · subst hs; simp [hz, h1, hneg, hov, concatN_empty]
      · simp [hz, h1, hneg, hov, hs, hl, hm]

/-- More positional arguments than `repeat` declares parameters are an error. -/
theorem repeat_too_many_positional (fn : String) (args : List Value)
    (kwargs : List (String × Value)) (h : 2 < args.length) :
    «repeat» fn args kwargs = .error (.tooManyPositional fn args.length 2) := by
  simp [«repeat», repeatWithDefault, UnpackArgs_repeat, bindArgs, h]


/-- A count that is not negative and whose result the machine can allocate gives
the repeated string: on these arguments `repeat` is the operation
`string * int`. -/
theorem repeat_nonneg (mem : Nat) (fn s : String) (n : Int) (h0 : 0 ≤ n) (hmax : n ≤ maxInt)
    (hmem : (s.utf8ByteSize : Int) * n ≤ (mem : Int))
    (hlim : (s.utf8ByteSize : Int) * n ≤ (runtimeMaxAlloc : Int)) :
    repeatWithDefault mem 1 fn [.str s, .int n] [] = .ok (.str (concatN s n.toNat)) := by
  have hmin : minInt ≤ n := le_trans (by decide) h0
  simp [repeatWithDefault, repeatResult, UnpackArgs_repeat, bindArgs, fillPositional,
    fillKeywords, checkRequired, projectAll, project, hmin, hmax,
    stringsRepeat_nonneg mem s n h0 hmem hlim]

/-- A negative count makes `repeat` panic, whatever the string. -/
theorem repeat_negative (fn s : String) (n : Int) (hneg : n < 0) (hmin : minInt ≤ n) :
    «repeat» fn [.str s, .int n] [] = .panic "strings: negative Repeat count" := by
  have hmax : n ≤ maxInt := le_trans (le_of_lt hneg) (by decide)
  have h0 : n ≠ 0 := ne_of_lt hneg
  have h1 : n ≠ 1 := by omega
  simp [«repeat», repeatWithDefault, repeatResult, UnpackArgs_repeat, bindArgs, fillPositional,
    fillKeywords, checkRequired, projectAll, project, hmin, hmax, stringsRepeat, h0, h1, hneg]

/-! ## The claims -/

/-- C1, evaluated on the code: the embedded program hands four messages to the
print sink, `2` first and then `hello, world`, `one`, `murmur`, and the host
returns normally.  The expected output of lines 69-76 has only the last
three. -/
theorem C1_print_sink_calls :
    ExampleExecFile.printed = ["2", "hello, world", "one", "murmur"]
      ∧ ExampleExecFile.exit = .returned := by
  decide

/-- C2, evaluated on the code: after the embedded program the globals are
`code_id` and `squares`, and the listing has two lines, `code_id (int) = 2` and
`squares (list) = [0, 1, 4, 9, 16, 25, 36, 49, 64, 81]`.  The expected output of
lines 69-76 has only the second. -/
theorem C2_globals_listing :
    Keys (ExecFile ExampleExecFile.thread "apparent/filename.star" ExampleExecFile.data
        ExampleExecFile.predeclared "").1.globals = ["code_id", "squares"]
      ∧ ExampleExecFile.stdout =
        "2\nhello, world\none\nmurmur\n\nGlobals:\ncode_id (int) = 2\n"
          ++ "squares (list) = [0, 1, 4, 9, 16, 25, 36, 49, 64, 81]\n" := by
  decide

/-- C3, evaluated on the code: `repeat("mur", -1)` panics in `strings.Repeat`
and returns no value, while the Starlark operation `"mur" * -1` is the empty
string. -/
theorem C3_repeat_negative_count_panics :
    «repeat» "repeat" [.str "mur", .int (-1)] [] = .panic "strings: negative Repeat count"
      ∧ binaryOp .mul (.str "mur") (.int (-1)) = .ok (.str "") :=
  ⟨rfl, rfl⟩

/-- C4, as stated, fails for a declared default that is negative or too large:
with `n` unsupplied `repeat` returns no value, on every machine. -/
theorem C4_bad_default_panics :
    (∀ mem : Nat, repeatWithDefault mem (-1) "repeat" [.str "mur"] []
        = .panic "strings: negative Repeat count")
      ∧ (∀ mem : Nat, ∃ msg, repeatWithDefault mem (2 ^ 61) "repeat" [.str "mur"] []
        = .panic msg)
      ∧ (∀ mem : Nat, ∃ msg, repeatWithDefault mem (2 ^ 62) "repeat" [.str "mur"] []
        = .panic msg) :=
  ⟨fun _ => rfl, fun _ => ⟨_, rfl⟩, fun _ => ⟨_, rfl⟩⟩

/-- C4, amended: with `s` bound positionally or by keyword and `n` not supplied,
`repeat` returns exactly `s`; for any declared default `d` the unpacker leaves
`n` at `d` and binds `s` to the argument, so the call is `strings.Repeat(s, d)`;
and when `d` is not negative and the machine can allocate the `len(s) * d` bytes
of the result, the call returns `s` repeated `d` times.  The first six parts
hold for every integer `d`, so for every value of Go's `int`. -/
theorem C4_repeat_default (mem : Nat) (fn s : String) (d : Int) :
    «repeat» fn [.str s] [] = .ok (.str s)
      ∧ «repeat» fn [] [("s", .str s)] = .ok (.str s)
      ∧ UnpackArgs fn [.str s] [] [("s", .string ""), ("n?", .int d)]
          = .ok [.string s, .int d]
      ∧ UnpackArgs fn [] [("s", .str s)] [("s", .string ""), ("n?", .int d)]
          = .ok [.string s, .int d]
      ∧ repeatWithDefault mem d fn [.str s] [] = repeatResult (stringsRepeat mem s d)
      ∧ repeatWithDefault mem d fn [] [("s", .str s)] = repeatResult (stringsRepeat mem s d)
      ∧ (0 ≤ d → d ≤ maxInt → (s.utf8ByteSize : Int) * d ≤ (mem : Int) →
          (s.utf8ByteSize : Int) * d ≤ (runtimeMaxAlloc : Int) →
          repeatWithDefault mem d fn [.str s] [] = .ok (.str (concatN s d.toNat))
            ∧ repeatWithDefault mem d fn [] [("s", .str s)]
              = .ok (.str (concatN s d.toNat))) := by
  have hpos : ∀ e : Int, UnpackArgs fn [.str s] [] [("s", .string ""), ("n?", .int e)]
      = .ok [.string s, .int e] := by
    intro e
    simp [UnpackArgs_repeat, bindArgs, fillPositional, fillKeywords, checkRequired, projectAll,
      project]
  have hkw : ∀ e : Int, UnpackArgs fn [] [("s", .str s)] [("s", .string ""), ("n?", .int e)]
      = .ok [.string s, .int e] := by
    intro e
    simp [UnpackArgs_repeat, bindArgs, fillPositional, fillKeywords, paramIndex, slotAt,
      checkRequired, projectAll, project]
  have hcallpos : ∀ (m : Nat) (e : Int),
      repeatWithDefault m e fn [.str s] [] = repeatResult (stringsRepeat m s e) := by
    intro m e
    simp [repeatWithDefault, hpos]
  have hcallkw : ∀ (m : Nat) (e : Int),
      repeatWithDefault m e fn [] [("s", .str s)] = repeatResult (stringsRepeat m s e) := by
    intro m e
    simp [repeatWithDefault, hkw]
  refine ⟨?_, ?_, hpos d, hkw d, hcallpos mem d, hcallkw mem d, ?_⟩
  · simp [«repeat», hcallpos, stringsRepeat, repeatResult]
  · simp [«repeat», hcallkw, stringsRepeat, repeatResult]
  · intro h0 _ hmem hlim
    rw [hcallpos, hcallkw, stringsRepeat_nonneg mem s d h0 hmem hlim]
    exact ⟨rfl, rfl⟩

/-- Witness of C4 at `s = "mur"`, the declared default `d = 2` and a machine
that can allocate six bytes. -/
theorem C4_repeat_default_witness :
    (0 : Int) ≤ 2 ∧ (2 : Int) ≤ maxInt ∧ (("mur".utf8ByteSize : Nat) : Int) * 2 ≤ ((6 : Nat) : Int)
      ∧ (("mur".utf8ByteSize : Nat) : Int) * 2 ≤ (runtimeMaxAlloc : Int)
      ∧ «repeat» "repeat" [.str "mur"] [] = .ok (.str "mur")
      ∧ UnpackArgs "repeat" [.str "mur"] [] [("s", .string ""), ("n?", .int 2)]
          = .ok [.string "mur", .int 2]
      ∧ repeatWithDefault 6 2 "repeat" [.str "mur"] [] = .ok (.str "murmur") :=
  have h := C4_repeat_default 6 "repeat" "mur" 2
  ⟨by decide, by decide, by decide, by decide, h.1, h.2.2.1,
    (h.2.2.2.2.2.2 (by decide) (by decide) (by decide) (by decide)).1⟩

/-- C5, evaluated on the code: for the call of line 15 the unpacker reports two
positional arguments where one parameter is declared, and `storeCode` drops the
error and returns the Integer 2. -/
theorem C5_store_code_extra_positional :
    UnpackArgs "store_code" [.str "sg721_base.wasm", .str "sg721_base"] []
        [("c", .string "c")] = .error (.tooManyPositional "store_code" 2 1)
      ∧ storeCode "store_code" [.str "sg721_base.wasm", .str "sg721_base"] []
        = .ok (.int 2) :=
  ⟨rfl, rfl⟩

/-- C6, as stated, fails: with three positional arguments the error of `repeat`
is the one about the positional arguments and does not name the undeclared
keyword. -/
theorem C6_positional_error_first :
    «repeat» "repeat" [.str "a", .int 1, .int 2] [("bogus", .int 1)]
      = .error (.tooManyPositional "repeat" 3 2) :=
  rfl

/-- C6, amended: every call of `repeat` with a keyword argument whose name is
neither `s` nor `n` returns an error and no value; when the call has at most two
positional arguments and the arguments before that keyword bind and have the
declared kinds, the error is the unexpected-keyword error naming it. -/
theorem C6_repeat_undeclared_keyword (fn : String) (args : List Value)
    (pre post : List (String × Value)) (kw : String) (v : Value)
    (hs : kw ≠ "s") (hn : kw ≠ "n") :
    (∃ e, «repeat» fn args (pre ++ (kw, v) :: post) = .error e)
      ∧ (args.length ≤ 2 →
          (∃ bound vars, fillKeywords fn ["s", "n"] pre (fillPositional args 2) = .ok bound
            ∧ projectAll fn [("s", .string ""), ("n", .int 1)] bound = .ok vars) →
          «repeat» fn args (pre ++ (kw, v) :: post) = .error (.unexpectedKeyword fn kw)) := by
  have hkw := paramIndex_undeclared kw hs hn
  constructor
  · by_cases hlen : 2 < args.length
    · exact ⟨_, repeat_too_many_positional fn args _ hlen⟩
    · obtain ⟨e, he⟩ := fillKeywords_undeclared fn ["s", "n"] kw v post hkw pre
        (fillPositional args 2)
      refine ⟨e, ?_⟩
      simp [«repeat», repeatWithDefault, UnpackArgs_repeat, bindArgs, hlen, he]
  · intro hlen hbound
    obtain ⟨bound, _, hb, _⟩ := hbound
    have he := fillKeywords_first_undeclared fn ["s", "n"] kw v post hkw pre
      (fillPositional args 2) bound hb
    have hlen2 : ¬ 2 < args.length := not_lt.mpr hlen
    simp [«repeat», repeatWithDefault, UnpackArgs_repeat, bindArgs, hlen2, he]

/-- Witness of C6: `repeat("a", n=2, bogus=1)`. -/
theorem C6_repeat_undeclared_keyword_witness :
    "bogus" ≠ "s" ∧ "bogus" ≠ "n"
      ∧ «repeat» "repeat" [.str "a"] [("n", .int 2), ("bogus", .int 1)]
        = .error (.unexpectedKeyword "repeat" "bogus") :=
  ⟨by decide, by decide,
    (C6_repeat_undeclared_keyword "repeat" [.str "a"] [("n", .int 2)] [] "bogus" (.int 1)
      (by decide) (by decide)).2 (by decide) ⟨_, _, rfl, rfl⟩⟩

/-- C7: when `ExecFile` returns an error the host writes nothing more to
standard output, so neither the `Globals:` header nor a line of the listing,
and ends through `log.Fatal`, with the backtrace for an `EvalError` and with the
plain error otherwise. -/
theorem C7_failed_run_lists_no_globals (st : Interp) :
    (∀ evalErr : EvalError, ExampleExecFile.finish (st, .error (.eval evalErr))
        = { printed := st.printed, stdout := st.stdout, exit := .fatal evalErr.Backtrace })
      ∧ (∀ msg : String, ExampleExecFile.finish (st, .error (.other msg))
        = { printed := st.printed, stdout := st.stdout, exit := .fatal msg }) :=
  ⟨fun _ => rfl, fun _ => rfl⟩

/-- C8: the keyword lists `[s=s, n=n]` and `[n=n, s=s]` bind the same values to
`s` and `n`, give the same host variables or the same error, and `repeat`
returns the same result for both. -/
theorem C8_repeat_keyword_order (fn s : String) (n : Int) :
    bindArgs fn [("s", false), ("n", true)] [] [("s", .str s), ("n", .int n)]
        = .ok [some (.str s), some (.int n)]
      ∧ bindArgs fn [("s", false), ("n", true)] [] [("n", .int n), ("s", .str s)]
        = .ok [some (.str s), some (.int n)]
      ∧ UnpackArgs fn [] [("s", .str s), ("n", .int n)] [("s", .string ""), ("n?", .int 1)]
        = UnpackArgs fn [] [("n", .int n), ("s", .str s)] [("s", .string ""), ("n?", .int 1)]
      ∧ «repeat» fn [] [("s", .str s), ("n", .int n)]
        = «repeat» fn [] [("n", .int n), ("s", .str s)] := by
  have h1 : bindArgs fn [("s", false), ("n", true)] [] [("s", .str s), ("n", .int n)]
      = .ok [some (.str s), some (.int n)] := by
    simp [bindArgs, fillPositional, fillKeywords, paramIndex, slotAt, checkRequired]
  have h2 : bindArgs fn [("s", false), ("n", true)] [] [("n", .int n), ("s", .str s)]
      = .ok [some (.str s), some (.int n)] := by
    simp [bindArgs, fillPositional, fillKeywords, paramIndex, slotAt, checkRequired]
  refine ⟨h1, h2, ?_, ?_⟩
  · rw [UnpackArgs_repeat, UnpackArgs_repeat, h1, h2]
  · simp only [«repeat», repeatWithDefault]
    rw [UnpackArgs_repeat, UnpackArgs_repeat, h1, h2]

/-- C9: when the arguments of a call of `repeat` bind, and the value bound to `s`
is not a String or the value bound to `n` is not an Integer, `repeat` returns
the projection error, with no value: it names a parameter whose value has the
wrong kind, the kind expected for it and the kind of the value. -/
theorem C9_repeat_projection_error (fn : String) (args : List Value)
    (kwargs : List (String × Value)) (vs : Value) (vn : Option Value)
    (hbind : bindArgs fn [("s", false), ("n", true)] args kwargs = .ok [some vs, vn])
    (hbad : vs.typeName ≠ "string" ∨ ∃ v, vn = some v ∧ v.typeName ≠ "int") :
    ∃ param expected actual,
      «repeat» fn args kwargs = .error (.projection fn param expected actual)
        ∧ ((param = "s" ∧ expected = "string" ∧ actual = vs.typeName ∧ actual ≠ "string")
          ∨ (param = "n" ∧ expected = "int"
              ∧ ∃ v, vn = some v ∧ actual = v.typeName ∧ actual ≠ "int")) := by
  have hrep : «repeat» fn args kwargs =
      match projectAll fn [("s", .string ""), ("n", .int 1)] [some vs, vn] with
      | .error err => .error err
      | .ok [.string s, .int n] => repeatResult (stringsRepeat runtimeMaxAlloc s n)
      | .ok _ => .panic "unreachable: UnpackArgs keeps the types of the host variables" := by
    simp only [«repeat», repeatWithDefault]
    rw [UnpackArgs_repeat, hbind]
  rw [hrep]
  by_cases hsty : vs.typeName = "string"
  · have hn : ∃ v, vn = some v ∧ v.typeName ≠ "int" := by
      rcases hbad with h | h
      · exact absurd hsty h
      · exact h
    obtain ⟨v, rfl, hv⟩ := hn
    refine ⟨"n", "int", v.typeName, ?_, Or.inr ⟨rfl, rfl, v, rfl, rfl, hv⟩⟩
    cases vs <;> simp [Value.typeName] at hsty
    cases v <;> simp [Value.typeName] at hv <;> simp [projectAll, project, Value.typeName]
  · refine ⟨"s", "string", vs.typeName, ?_, Or.inl ⟨rfl, rfl, rfl, hsty⟩⟩
    cases vs <;> simp [Value.typeName] at hsty <;> simp [projectAll, project, Value.typeName]

/-- Witness of C9: `repeat(7)`. -/
theorem C9_repeat_projection_error_witness :
    bindArgs "repeat" [("s", false), ("n", true)] [.int 7] [] = .ok [some (.int 7), none]
      ∧ (Value.int 7).typeName ≠ "string"
      ∧ ∃ param expected actual,
        «repeat» "repeat" [.int 7] [] = .error (.projection "repeat" param expected actual)
          ∧ ((param = "s" ∧ expected = "string" ∧ actual = (Value.int 7).typeName
                ∧ actual ≠ "string")
            ∨ (param = "n" ∧ expected = "int"
                ∧ ∃ v, (none : Option Value) = some v ∧ actual = v.typeName
                  ∧ actual ≠ "int")) :=
  ⟨rfl, by decide,
    C9_repeat_projection_error "repeat" [.int 7] [] (.int 7) none rfl (Or.inl (by decide))⟩

/-- C10: `storeCode` returns the Integer 2 and no error for every name, every
positional-argument tuple and every keyword-argument list, and a call of
`store_code` from the script yields 2 and leaves the state of the execution as
it was. -/
theorem C10_store_code_constant (bName : String) (args : List Value)
    (kwargs : List (String × Value)) :
    storeCode bName args kwargs = .ok (.int 2)
      ∧ ∀ (thread : Thread) (file : String) (line : Nat) (st : Interp),
          callValue thread file line ExampleExecFile.predeclared (.builtin "store_code")
            args kwargs st = (st, .ok (.int 2)) :=
  ⟨rfl, fun _ _ _ _ => rfl⟩

end Wasmtester
